import Mathlib

set_option maxHeartbeats 1000000
set_option maxRecDepth 10000

/-!
Shallow embedding of the query-execution pipeline of the julep `agents-api`
data-access layer, together with the Domain Operations referenced by the
claims (`create_or_update_agent`, `patch_session`, `create_entries`,
`add_entry_relations`, `list_agents`, `search_docs_by_embedding`).

Python dictionaries/rows are modelled as ordered association lists, Python
dynamic values as the inductive `Value`, and the decorator pipeline
(`pg_query`, `wrap_in_class`, `rewrap_exceptions` in `queries/utils.py`,
which is not part of the sample) is modelled from the specification.
-/

namespace Julep

/-- Dynamically typed values exchanged with the store (Python scalars,
lists and dicts). -/
inductive Value where
  | null
  | bool (b : Bool)
  | int (n : Int)
  | str (s : String)
  | list (vs : List Value)
  | dict (kvs : List (String × Value))

/-- A `Row` is an ordered mapping from column name to value
(spec section 3: "ordered mapping column-name → value"). -/
abbrev Row := List (String × Value)

/-- Python truthiness (`bool(v)`): `None`, `False`, `0`, `""`, `[]`, and
`{}` are falsy, everything else truthy. -/
def valueTruthy : Value → Bool
  | .null => false
  | .bool b => b
  | .int n => n != 0
  | .str s => !s.isEmpty
  | .list vs => !vs.isEmpty
  | .dict kvs => !kvs.isEmpty

/-- Python `x or y`. -/
def pyOr (x y : Value) : Value :=
  if valueTruthy x then x else y

/-- Python `d.get(k)`: the value at `k`, `None` when absent. -/
def rowGet (r : Row) (k : String) : Value :=
  (r.lookup k).getD .null

/-- Removing a key from a dict (the effect of `d.pop(k)` on `d`). -/
def rowPopKey (d : Row) (k : String) : Row :=
  d.filter (fun p => p.1 != k)

/-- Python dict assignment `m[k] = v`: replaces the value in place when the
key exists, otherwise appends the pair (insertion order preserved). -/
def dictInsert (m : Row) (k : String) (v : Value) : Row :=
  if m.any (fun p => p.1 == k) then
    m.map (fun p => if p.1 == k then (k, v) else p)
  else
    m ++ [(k, v)]

/-- Python dict spread `{**m, **d}`: entries of `d` inserted into `m`
left to right. -/
def dictExtend (m : Row) (d : Row) : Row :=
  d.foldl (fun acc p => dictInsert acc p.1 p.2) m

/-- Lowercasing a string, Python `s.lower()` restricted to ASCII content. -/
def strLower (s : String) : String :=
  ⟨s.toList.map Char.toLower⟩

/-- Python `sep.join(parts)` on the string model. -/
def joinWith (sep : String) : List String → String
  | [] => ""
  | [s] => s
  | s :: rest => s ++ sep ++ joinWith sep rest

/-- Python `s.replace(pat, rep)` on character lists: non-overlapping, left
to right.  An empty pattern never matches (the patterns used by the
embedded code are non-empty).  The `fuel` argument makes the recursion
structural; it is called with the length of the scanned list, which the
recursion never outruns. -/
def listReplace (pat rep : List Char) : Nat → List Char → List Char
  | _, [] => []
  | 0, l => l
  | fuel + 1, c :: rest =>
    if pat.isPrefixOf (c :: rest) ∧ pat ≠ [] then
      rep ++ listReplace pat rep fuel (rest.drop (pat.length - 1))
    else
      c :: listReplace pat rep fuel rest

/-- Python `s.replace(pat, rep)` (all occurrences). -/
def strReplace (s pat rep : String) : String :=
  ⟨listReplace pat.toList rep.toList s.toList.length s.toList⟩

/-- Whether `pat` occurs as a contiguous substring. -/
def listContains (pat : List Char) : List Char → Bool
  | [] => pat.isEmpty
  | c :: rest => pat.isPrefixOf (c :: rest) || listContains pat rest

/-- Whether `pat` occurs as a substring of `s`. -/
def containsSub (s pat : String) : Bool :=
  listContains pat.toList s.toList

/-- Positional-placeholder scanner state: `(accumulated index, at least one
digit seen)`, present while reading a `$`-prefixed token. -/
def scanPH : List Char → Option (Nat × Bool) → List Nat
  | [], st =>
    match st with
    | some (n, true) => [n]
    | _ => []
  | c :: rest, some (n, saw) =>
    if c.isDigit then
      scanPH rest (some (10 * n + (c.toNat - 48), true))
    else
      let tl := scanPH rest (if c = '$' then some (0, false) else none)
      if saw then n :: tl else tl
  | c :: rest, none =>
    scanPH rest (if c = '$' then some (0, false) else none)

/-- All positional placeholder indices `$n` occurring in a SQL text. -/
def placeholders (sql : String) : List Nat :=
  scanPH sql.toList none

/-- The highest positional placeholder index referenced by a SQL text
(0 when none occurs). -/
def maxPlaceholder (sql : String) : Nat :=
  (placeholders sql).foldl max 0

/-! ## The pipeline (spec sections 4.2–4.4)

The decorators `pg_query`, `wrap_in_class` and `rewrap_exceptions` live in
`agents_api/queries/utils.py`, which is not part of the sample; the models
below follow the specification's description of the Execution Engine, the
Error Translator and the Result Materializer. -/

/-- A domain error as seen by the HTTP layer: status code plus detail
message (FastAPI `HTTPException`). -/
structure HTTPExc where
  status_code : Nat
  detail : String
deriving DecidableEq

/-- The store's closed error taxonomy (spec section 6, asyncpg exception
classes); `other` covers every unmapped class. -/
inductive PGErrorClass where
  | foreignKeyViolation
  | uniqueViolation
  | checkViolation
  | dataError
  | notNullViolation
  | noDataFound
  | other (name : String)
deriving DecidableEq

/-- What the caller of a Domain Operation can receive on failure: a mapped
domain error, or the raw store error re-raised unchanged. -/
inductive DomainError where
  | http (e : HTTPExc)
  | store (e : PGErrorClass)
deriving DecidableEq

/-- Modelled from the spec: the Error Translator (`rewrap_exceptions` in
`queries/utils.py`, not under `src/`).  On success the result passes
through unchanged; on failure, if the store error's classification has a
mapping entry the mapped domain error is raised, otherwise the original
store error is re-raised unchanged (fail-open). -/
def rewrap_exceptions {α : Type} (mapping : PGErrorClass → Option HTTPExc) :
    Except PGErrorClass α → Except DomainError α
  | .ok a => .ok a
  | .error e =>
    .error (match mapping e with
      | some h => .http h
      | none => .store e)

/-- Failure modes of the Result Materializer (spec sections 4.4 and 7). -/
inductive MatError where
  | notFound
  | cardinality
  | materialization (field : String)
deriving DecidableEq

/-- Modelled from the spec: shape validation — every field declared
required on the target shape must be present post-transform; a missing
field fails with a materialization error naming the offending field. -/
def validateShape (required : List String) (r : Row) : Except MatError Row :=
  match required.find? (fun f => (r.lookup f).isNone) with
  | some f => .error (.materialization f)
  | none => .ok r

/-- Modelled from the spec: the Result Materializer's single-result path
(`wrap_in_class` with `one=True`, `queries/utils.py`, not under `src/`):
zero rows is a NotFound condition, more than one row is a cardinality
(invariant-violation) error, exactly one row is transformed and
shape-validated. -/
def materializeSingle (transform : Row → Row) (required : List String) :
    List Row → Except MatError Row
  | [] => .error .notFound
  | [r] => validateShape required (transform r)
  | _ :: _ :: _ => .error .cardinality

/-- Modelled from the spec: the Result Materializer's many-result path
(`wrap_in_class` with `one=False`): every row is transformed and
shape-validated independently, order preserved; the first failing row's
error is reported. -/
def materializeMany (transform : Row → Row) (required : List String) :
    List Row → Except MatError (List Row)
  | [] => .ok []
  | r :: rest =>
    match validateShape required (transform r),
          materializeMany transform required rest with
    | .ok x, .ok xs => .ok (x :: xs)
    | .error e, _ => .error e
    | .ok _, .error e => .error e

/-- Per-statement fetch semantics (the `"fetch" | "fetchmany" | "fetchrow"`
strings of the Python sources). -/
inductive FetchMode where
  | fetch
  | fetchmany
  | fetchrow
deriving DecidableEq

/-- A statement's parameters: one positional list, or a list of parameter
lists for batched execution. -/
inductive QParams where
  | single (ps : List Value)
  | batch (pss : List (List Value))

/-- A Query Statement: SQL text, parameters, fetch mode (spec section 3). -/
structure QueryStmt where
  sql : String
  params : QParams
  mode : FetchMode

/-- A row is truthy when it carries some truthy value (the shape produced
by `SELECT EXISTS (...) AS exists` is a single boolean column). -/
def rowTruthy (r : Row) : Bool :=
  r.any (fun p => valueTruthy p.2)

/-- An existence check succeeds exactly when the result is one truthy row
(spec section 8: "requires the check to return exactly one truthy row"). -/
def exactlyOneTruthy : List Row → Bool
  | [r] => rowTruthy r
  | _ => false

/-- Modelled from the spec: the Execution Engine (`pg_query` in
`queries/utils.py`, not under `src/`).  `store` gives the rows the store
returns for a statement.  Statements run strictly in declared order; a
`fetchrow` existence-check statement whose result is not exactly one
truthy row raises a `NoDataFound` store error and aborts the loop — no
later statement executes.  Returns the statements actually executed, in
order, together with the collected results or the store error. -/
def execPlan (store : QueryStmt → List Row) :
    List QueryStmt → List QueryStmt × Except PGErrorClass (List (List Row))
  | [] => ([], .ok [])
  | s :: rest =>
    let rows := store s
    if s.mode = .fetchrow ∧ exactlyOneTruthy rows = false then
      ([s], .error .noDataFound)
    else
      match execPlan store rest with
      | (ex, .ok rss) => (s :: ex, .ok (rows :: rss))
      | (ex, .error e) => (s :: ex, .error e)

/-! ## Domain Operations (embedded from the sources under `src/`) -/

/-- Constant `session_exists_query` of `queries/entries/create_entries.py`. -/
def session_exists_query : String := "
SELECT EXISTS (
    SELECT 1 FROM sessions
    WHERE session_id = $1 AND developer_id = $2
) AS exists;
"

/-- Constant `entry_query` of `queries/entries/create_entries.py`. -/
def entry_query : String := "
INSERT INTO entries (
    session_id,
    entry_id, 
    source,
    role,
    event_type,
    name,
    content,
    tool_call_id,
    tool_calls,
    model,
    token_count,
    tokenizer,
    created_at,
    timestamp
) VALUES ($1, $2, $3, $4, $5, $6, $7, $8, $9, $10, $11, $12, $13, $14)
RETURNING *;
"

/-- Constant `entry_relation_query` of `queries/entries/create_entries.py` (note: the
column list names four columns, with a trailing comma, while the VALUES
clause references five placeholders). -/
def entry_relation_query : String := "
INSERT INTO entry_relations (
    session_id,
    head,
    relation,
    tail,
) VALUES ($1, $2, $3, $4, $5)
RETURNING *;
"

/-- Constant `raw_query` of `queries/agents/list_agents.py` (the \x7bmetadata_filter_query\x7d
marker is filled in by `list_agents` via Python `str.format`). -/
def raw_query : String := "
SELECT 
    agent_id,
    developer_id,
    name,
    canonical_name,
    about,
    instructions,
    model,
    metadata,
    default_settings,
    created_at,
    updated_at
FROM agents
WHERE developer_id = $1 \x7bmetadata_filter_query\x7d
ORDER BY 
    CASE WHEN $4 = 'created_at' AND $5 = 'asc' THEN created_at END ASC NULLS LAST,
    CASE WHEN $4 = 'created_at' AND $5 = 'desc' THEN created_at END DESC NULLS LAST,
    CASE WHEN $4 = 'updated_at' AND $5 = 'asc' THEN updated_at END ASC NULLS LAST,
    CASE WHEN $4 = 'updated_at' AND $5 = 'desc' THEN updated_at END DESC NULLS LAST
LIMIT $2 OFFSET $3;
"

/-- Constant `search_docs_by_embedding_query` of
`queries/docs/search_docs_by_embedding.py`. -/
def search_docs_by_embedding_query : String := "
SELECT * FROM search_by_vector(
    $1, -- developer_id
    $2::vector(1024), -- query_embedding
    $3::text[], -- owner_types
    $UUID_LIST::uuid[], -- owner_ids
    $4, -- k
    $5, -- confidence
    $6 -- metadata_filter
)
"

/-- The Error Mapping declared by `create_or_update_agent`
(`queries/agents/create_or_update_agent.py` lines 51–74): the
`rewrap_exceptions` dict keyed by asyncpg exception class. -/
def create_or_update_agent_exc_map : PGErrorClass → Option HTTPExc
  | .foreignKeyViolation =>
    some ⟨404, "The specified developer does not exist."⟩
  | .uniqueViolation =>
    some ⟨409, "An agent with this canonical name already exists for this developer."⟩
  | .checkViolation =>
    some ⟨400, "The provided data violates one or more constraints. Please check the input values."⟩
  | .dataError =>
    some ⟨400, "Invalid data provided. Please check the input values."⟩
  | _ => none

/-- The Error Mapping declared by `create_entries`
(`queries/entries/create_entries.py` lines 57–80). -/
def create_entries_exc_map : PGErrorClass → Option HTTPExc
  | .foreignKeyViolation => some ⟨404, "Session not found"⟩
  | .uniqueViolation => some ⟨409, "Entry already exists"⟩
  | .notNullViolation => some ⟨400, "Not null violation"⟩
  | .noDataFound => some ⟨404, "Session not found"⟩
  | _ => none

/-- The Transform declared by `create_entries`
(`create_entries.py` lines 83–86):
`lambda d: \x7b"id": d.pop("entry_id"), **d\x7d`.
`d.pop("entry_id")` returns the value at `entry_id` and removes that key
from `d`.  The result is `(output mapping, post-call state of the input
row d)`; `none` models the `KeyError` Python raises when the key is
absent. -/
def create_entries_transform (d : Row) : Option (Row × Row) :=
  (d.lookup "entry_id").map (fun v =>
    let d2 := rowPopKey d "entry_id"
    (dictExtend [("id", v)] d2, d2))

/-- The Transform declared by `create_or_update_agent`
(`create_or_update_agent.py` line 78):
`lambda d: \x7b"id": d["agent_id"], **d\x7d`.
Reading `d["agent_id"]` does not mutate `d`, so the post-call state of the
input row is `d` itself; `none` models the `KeyError` on a missing key. -/
def create_or_update_agent_transform (d : Row) : Option (Row × Row) :=
  (d.lookup "agent_id").map (fun v => (dictExtend [("id", v)] d, d))

/-- The output-mapping component of a (possibly input-mutating) transform,
as the Result Materializer consumes it.  A `KeyError` (`none`) would
propagate in Python; it is represented by the empty row and is never hit
on rows that carry the popped key. -/
def transformOut (t : Row → Option (Row × Row)) (d : Row) : Row :=
  ((t d).getD ([], [])).1

/-- The per-item parameter lists built by `create_entries`
(`create_entries.py` lines 97–121).  External effects are passed in:
`freshId i` models the `uuid7()` drawn for item `i`, `now` models
`utcnow()`, `nowTs` models `utcnow().timestamp()`, `tokenizerType m`
models `select_tokenizer(m)["type"]`, and `contentToJson` models
`content_to_json`. -/
def create_entries_entry_params (freshId : Nat → Value) (now nowTs : Value)
    (tokenizerType contentToJson : Value → Value)
    (session_id : Value) (data : List Row) : List (List Value) :=
  data.enum.map (fun q =>
    let item := q.2
    [ session_id,                                                    -- $1
      pyOr (rowGet item "id") (freshId q.1),                         -- $2
      rowGet item "source",                                          -- $3
      rowGet item "role",                                            -- $4
      pyOr (rowGet item "event_type") (.str "message.create"),       -- $5
      rowGet item "name",                                            -- $6
      contentToJson (pyOr (rowGet item "content") (.dict [])),       -- $7
      rowGet item "tool_call_id",                                    -- $8
      contentToJson (pyOr (rowGet item "tool_calls") (.dict [])),    -- $9
      rowGet item "model",                                           -- $10
      rowGet item "token_count",                                     -- $11
      tokenizerType (rowGet item "model"),                           -- $12
      pyOr (rowGet item "created_at") now,                           -- $13
      nowTs ])                                                       -- $14

/-- The Query Plan built by `create_entries` (`create_entries.py` lines
91–134): first the session-existence check (`fetchrow`), then the batched
entry insert (`fetchmany`). -/
def create_entries (freshId : Nat → Value) (now nowTs : Value)
    (tokenizerType contentToJson : Value → Value)
    (developer_id session_id : Value) (data : List Row) : List QueryStmt :=
  [ ⟨session_exists_query, .single [session_id, developer_id], .fetchrow⟩,
    ⟨entry_query,
      .batch (create_entries_entry_params freshId now nowTs tokenizerType
        contentToJson session_id data),
      .fetchmany⟩ ]

/-- The Query Plan built by `add_entry_relations` (`create_entries.py`
lines 160–193): the session-existence check, then the batched relation
insert whose per-item parameters are
`[session_id, head, relation, tail]` read off each relation dict. -/
def add_entry_relations (developer_id session_id : Value)
    (data : List Row) : List QueryStmt :=
  [ ⟨session_exists_query, .single [session_id, developer_id], .fetchrow⟩,
    ⟨entry_relation_query,
      .batch (data.map (fun item =>
        [ rowGet item "session_id",   -- $1
          rowGet item "head",         -- $2
          rowGet item "relation",     -- $3
          rowGet item "tail" ])),     -- $4
      .fetchmany⟩ ]

/-- The clause `list_agents` splices into `raw_query` when a metadata
filter is supplied. -/
def metadata_filter_clause : String := "AND metadata @> $6::jsonb"

/-- Function `list_agents` (`queries/agents/list_agents.py` lines 63–110): validates
the sort direction, fills the metadata-filter marker of `raw_query`
(present exactly when `metadata_filter` is truthy, i.e. non-empty), and
returns the SQL with the positional parameters
`[developer_id, limit, offset, sort_by, direction]`, extended with
`metadata_filter` when the clause is present. -/
def list_agents (developer_id : Value) (limit offst : Int)
    (sort_by direction : String) (metadata_filter : Row) :
    Except HTTPExc (String × List Value) :=
  if strLower direction ≠ "asc" ∧ strLower direction ≠ "desc" then
    .error ⟨400, "Invalid sort direction"⟩
  else
    let agent_query := strReplace raw_query "\x7bmetadata_filter_query\x7d"
      (if metadata_filter.isEmpty then "" else metadata_filter_clause)
    let params : List Value :=
      [developer_id, .int limit, .int offst, .str sort_by, .str direction]
    .ok (agent_query,
      if metadata_filter.isEmpty then params else params ++ [.dict metadata_filter])

/-- Function `search_docs_by_embedding` (`queries/docs/search_docs_by_embedding.py`
lines 46–96).  Floats are modelled by their Python `str()` rendering, so
`query_embedding` is the list of rendered components and owner UUIDs are
their string forms.  Validates `k` and the embedding, then splices the
owner IDs into the SQL as a textual `ARRAY[...]` fragment while passing
everything else positionally. -/
def search_docs_by_embedding (developer_id : Value)
    (query_embedding : List String) (k : Int)
    (owners : List (String × String)) (confidence : Value)
    (metadata_filter : Row) : Except HTTPExc (String × List Value) :=
  if k < 1 then
    .error ⟨400, "k must be >= 1"⟩
  else if query_embedding.isEmpty then
    .error ⟨400, "Empty embedding provided"⟩
  else
    let query_embedding_str := "[" ++ joinWith ", " query_embedding ++ "]"
    let owner_types := owners.map Prod.fst
    let owner_ids := owners.map Prod.snd
    let owner_ids_pg_str := "ARRAY['" ++ joinWith "', '" owner_ids ++ "']"
    let query := strReplace search_docs_by_embedding_query "$UUID_LIST" owner_ids_pg_str
    .ok (query,
      [ developer_id,
        .str query_embedding_str,
        .list (owner_types.map .str),
        .int k,
        confidence,
        .dict metadata_filter ])

/-- Stated from the spec/claim wording, for comparison with what
`search_docs_by_embedding` builds: "a literal SQL array fragment
ARRAY['<id_1>', ..., '<id_n>'] built by string concatenation from the
owners' UUID strings in input order". -/
def specUuidArrayFragment (ids : List String) : String :=
  "ARRAY['" ++ joinWith "', '" ids ++ "']"

/-- The caller-consistency check of spec section 3: the number of
parameters in each parameter list equals the highest positional
placeholder index referenced by the statement's SQL. -/
def stmtParamsConsistent (s : QueryStmt) : Bool :=
  match s.params with
  | .single ps => ps.length == maxPlaceholder s.sql
  | .batch pss => pss.all (fun ps => ps.length == maxPlaceholder s.sql)

/-! ## Helper lemmas -/

theorem lookup_eq_none_iff (d : Row) (k : String) :
    d.lookup k = none ↔ ∀ p ∈ d, p.1 ≠ k := by
  induction d with
  | nil => simp
  | cons a t ih =>
    obtain ⟨x, v⟩ := a
    by_cases hx : k = x
    · subst hx
      simp [List.lookup]
    · simp [List.lookup, beq_false_of_ne hx, ih]
      intro _
      exact fun h => (hx h.symm).elim

theorem lookup_rowPopKey_self (d : Row) (k : String) :
    (rowPopKey d k).lookup k = none := by
  rw [lookup_eq_none_iff]
  intro p hp
  rw [rowPopKey, List.mem_filter] at hp
  simpa using hp.2

theorem lookup_rowPopKey_ne (d : Row) (j k : String) (h : k ≠ j) :
    (rowPopKey d j).lookup k = d.lookup k := by
  induction d with
  | nil => rfl
  | cons a t ih =>
    obtain ⟨x, v⟩ := a
    by_cases hx : x = j
    · subst hx
      have : (k == x) = false := beq_false_of_ne h
      simp [rowPopKey, List.lookup, this] at ih ⊢
      simpa [rowPopKey] using ih
    · simp [rowPopKey, List.filter, bne, beq_false_of_ne hx, List.lookup] at ih ⊢
      cases hkx : k == x with
      | true => simp [List.lookup, hkx]
      | false => simpa [List.lookup, hkx, rowPopKey] using ih

theorem dictInsert_fresh (m : Row) (k : String) (v : Value)
    (h : ∀ q ∈ m, q.1 ≠ k) : dictInsert m k v = m ++ [(k, v)] := by
  have hany : m.any (fun p => p.1 == k) = false := by
    rw [List.any_eq_false]
    intro p hp
    simpa using h p hp
  simp [dictInsert, hany]

theorem dictExtend_fresh (d : Row) (m : Row)
    (hfresh : ∀ p ∈ d, ∀ q ∈ m, q.1 ≠ p.1)
    (hd : (d.map Prod.fst).Nodup) : dictExtend m d = m ++ d := by
  induction d generalizing m with
  | nil => simp [dictExtend]
  | cons a t ih =>
    obtain ⟨k, v⟩ := a
    have hstep : dictInsert m k v = m ++ [(k, v)] :=
      dictInsert_fresh m k v (fun q hq => hfresh (k, v) (by simp) q hq)
    have hrest : dictExtend (m ++ [(k, v)]) t = (m ++ [(k, v)]) ++ t := by
      apply ih
      · intro p hp q hq
        rcases List.mem_append.mp hq with hq1 | hq2
        · exact hfresh p (List.mem_cons_of_mem _ hp) q hq1
        · have hqk : q = (k, v) := by simpa using hq2
          subst hqk
          have hk : k ∉ t.map Prod.fst := by
            have := hd
            simp only [List.map_cons, List.nodup_cons] at this
            exact this.1
          intro hcontra
          have hcontra2 : k = p.1 := hcontra
          exact hk (by
            rw [hcontra2]
            exact List.mem_map_of_mem Prod.fst hp)
      · have := hd
        simp only [List.map_cons, List.nodup_cons] at this
        exact this.2
    calc dictExtend m ((k, v) :: t)
        = dictExtend (dictInsert m k v) t := rfl
      _ = dictExtend (m ++ [(k, v)]) t := by rw [hstep]
      _ = (m ++ [(k, v)]) ++ t := hrest
      _ = m ++ ((k, v) :: t) := by simp

theorem validateShape_ok (required : List String) (r : Row)
    (h : ∀ f ∈ required, (r.lookup f).isSome) :
    validateShape required r = .ok r := by
  rw [validateShape]
  cases hf : required.find? (fun f => (r.lookup f).isNone) with
  | none => rfl
  | some f =>
    have hmem := List.mem_of_find?_eq_some hf
    have hpred := List.find?_some hf
    have := h f hmem
    rw [Option.isNone_iff_eq_none] at hpred
    rw [hpred] at this
    simp at this

/-! ## Claims -/

/-- C1: for every execution of `create_or_update_agent` failing with a
store error in the declared Error Mapping, the caller receives exactly the
mapped domain error (ForeignKeyViolationError → 404 "The specified
developer does not exist.", UniqueViolationError → 409,
CheckViolationError → 400, DataError → 400); every failure outside these
four classes propagates unchanged (fail-open). -/
theorem create_or_update_agent_error_translation :
    (rewrap_exceptions (α := List Row) create_or_update_agent_exc_map
        (.error .foreignKeyViolation)
      = .error (.http ⟨404, "The specified developer does not exist."⟩))
  ∧ (rewrap_exceptions (α := List Row) create_or_update_agent_exc_map
        (.error .uniqueViolation)
      = .error (.http ⟨409,
          "An agent with this canonical name already exists for this developer."⟩))
  ∧ (rewrap_exceptions (α := List Row) create_or_update_agent_exc_map
        (.error .checkViolation)
      = .error (.http ⟨400,
          "The provided data violates one or more constraints. Please check the input values."⟩))
  ∧ (rewrap_exceptions (α := List Row) create_or_update_agent_exc_map
        (.error .dataError)
      = .error (.http ⟨400, "Invalid data provided. Please check the input values."⟩))
  ∧ ∀ e : PGErrorClass, create_or_update_agent_exc_map e = none →
      rewrap_exceptions (α := List Row) create_or_update_agent_exc_map (.error e)
        = .error (.store e) := by
  refine ⟨rfl, rfl, rfl, rfl, ?_⟩
  intro e he
  simp [rewrap_exceptions, he]

/-- Witness for C1: a store error class outside the mapping
(`NotNullViolationError` is not mapped by `create_or_update_agent`)
re-raises unchanged. -/
theorem create_or_update_agent_error_translation_witness :
    rewrap_exceptions (α := List Row) create_or_update_agent_exc_map
        (.error .notNullViolation)
      = .error (.store .notNullViolation) :=
  create_or_update_agent_error_translation.2.2.2.2 .notNullViolation rfl

/-- C2: single-result materialization (`one=True`, as declared by
`patch_session` and `create_or_update_agent`): zero rows fails NotFound,
exactly one row returns the transformed shape-validated record, two or
more rows fail with a cardinality error — never silent truncation. -/
theorem single_result_materialization (t : Row → Row) (req : List String) :
    materializeSingle t req [] = .error .notFound
  ∧ (∀ r : Row, (∀ f ∈ req, ((t r).lookup f).isSome) →
      materializeSingle t req [r] = .ok (t r))
  ∧ ∀ rows : List Row, 2 ≤ rows.length →
      materializeSingle t req rows = .error .cardinality := by
  refine ⟨rfl, ?_, ?_⟩
  · intro r hr
    rw [materializeSingle, validateShape_ok _ _ hr]
  · intro rows hlen
    match rows with
    | [] => simp at hlen
    | [r] => simp at hlen
    | a :: b :: l => rfl

/-- Witness for C2: one row from `create_or_update_agent`'s statement
yields the transformed record; three rows yield the cardinality error. -/
theorem single_result_materialization_witness :
    materializeSingle (transformOut create_or_update_agent_transform) ["id"]
        [[("agent_id", Value.str "A")]]
      = .ok (transformOut create_or_update_agent_transform
          [("agent_id", Value.str "A")])
  ∧ materializeSingle (transformOut create_or_update_agent_transform) ["id"]
        [[], [], []]
      = .error .cardinality :=
  ⟨(single_result_materialization _ _).2.1 _ (by decide),
   (single_result_materialization _ _).2.2 [[], [], []] (by decide)⟩

/-- C4 (the code violates it): `add_entry_relations` returns the
session-existence check — whose SQL references `$1..$2` and carries two
parameters, consistently — followed by the relation insert, whose SQL
(`entry_relation_query`) references placeholders up to `$5` while every
per-item parameter list carries only four values; the claimed
placeholder/parameter consistency fails on the second statement. -/
theorem add_entry_relations_placeholder_mismatch :
    maxPlaceholder entry_relation_query = 5
  ∧ maxPlaceholder session_exists_query = 2
  ∧ (add_entry_relations (Value.str "D") (Value.str "S")
      [[("session_id", Value.str "S"), ("head", Value.str "H"),
        ("relation", Value.str "R"), ("tail", Value.str "T")]]).map
      stmtParamsConsistent
    = [true, false] :=
  ⟨rfl, rfl, rfl⟩

/-- C5 (counterexample): the transform declared by `create_entries` is not
pure — on the row `{entry_id: "E1", role: "user"}` it produces the output
`{id: "E1", role: "user"}` but leaves the input row as `{role: "user"}`,
which differs from the original row. -/
theorem create_entries_transform_not_pure :
    create_entries_transform [("entry_id", Value.str "E1"), ("role", Value.str "user")]
      = some ([("id", Value.str "E1"), ("role", Value.str "user")],
              [("role", Value.str "user")])
  ∧ ([("role", Value.str "user")] : Row)
      ≠ [("entry_id", Value.str "E1"), ("role", Value.str "user")] := by
  refine ⟨rfl, ?_⟩
  intro h
  exact absurd (congrArg List.length h) (by decide)

/-- C5 (amended): the transform declared by `create_entries` computes the
output mapping from the input row — `entry_id` renamed to `id`, every
other field preserved — but it mutates the input Row: `d.pop` removes the
`entry_id` key, so the input row does not remain unchanged after
transformation. -/
theorem create_entries_transform_amended (d : Row) (v : Value)
    (hv : d.lookup "entry_id" = some v)
    (hid : d.lookup "id" = none)
    (hnodup : (d.map Prod.fst).Nodup) :
    ∃ out post, create_entries_transform d = some (out, post)
      ∧ post = rowPopKey d "entry_id"
      ∧ post.lookup "entry_id" = none
      ∧ out.lookup "id" = some v
      ∧ ∀ k, k ≠ "entry_id" → k ≠ "id" → out.lookup k = d.lookup k := by
  have hfresh : ∀ p ∈ rowPopKey d "entry_id", ∀ q ∈ ([("id", v)] : Row), q.1 ≠ p.1 := by
    intro p hp q hq
    have hpd : p ∈ d := List.mem_of_mem_filter hp
    have hq2 : q = ("id", v) := by simpa using hq
    subst hq2
    have := (lookup_eq_none_iff d "id").mp hid p hpd
    exact fun hc => this hc.symm
  have hsub : List.Sublist ((rowPopKey d "entry_id").map Prod.fst) (d.map Prod.fst) :=
    (List.filter_sublist d).map Prod.fst
  have hnd2 : ((rowPopKey d "entry_id").map Prod.fst).Nodup := hnodup.sublist hsub
  have hout : dictExtend [("id", v)] (rowPopKey d "entry_id")
      = ("id", v) :: rowPopKey d "entry_id" := by
    rw [dictExtend_fresh _ _ hfresh hnd2]
    rfl
  refine ⟨("id", v) :: rowPopKey d "entry_id", rowPopKey d "entry_id", ?_, rfl, ?_, ?_, ?_⟩
  · rw [create_entries_transform, hv]
    simp [hout]
  · exact lookup_rowPopKey_self d "entry_id"
  · simp [List.lookup]
  · intro k hk1 hk2
    have : (k == "id") = false := beq_false_of_ne hk2
    simp only [List.lookup, this]
    exact lookup_rowPopKey_ne d "entry_id" k hk1

/-- Witness for C5's amended theorem: the concrete row
`{entry_id: "E1", role: "user"}`. -/
theorem create_entries_transform_amended_witness :
    ∃ out post,
      create_entries_transform [("entry_id", Value.str "E1"), ("role", Value.str "user")]
        = some (out, post)
      ∧ post = rowPopKey [("entry_id", Value.str "E1"), ("role", Value.str "user")] "entry_id"
      ∧ post.lookup "entry_id" = none
      ∧ out.lookup "id" = some (Value.str "E1")
      ∧ ∀ k, k ≠ "entry_id" → k ≠ "id" →
          out.lookup k
            = ([("entry_id", Value.str "E1"), ("role", Value.str "user")] : Row).lookup k :=
  create_entries_transform_amended _ (Value.str "E1") rfl rfl (by decide)

/-- C3: when `create_entries`' session-existence check (the plan's first
statement) finds no matching session, execution stops with a `NoDataFound`
store error — the dependent entry-insert statement never executes — and
the declared Error Mapping turns it into the NotFound domain error
(404, "Session not found"). -/
theorem create_entries_session_check_gates_insert
    (store : QueryStmt → List Row) (freshId : Nat → Value) (now nowTs : Value)
    (tokenizerType contentToJson : Value → Value)
    (developer_id session_id : Value) (data : List Row)
    (hcheck : store ⟨session_exists_query, .single [session_id, developer_id], .fetchrow⟩
        = [[("exists", Value.bool false)]]) :
    execPlan store
        (create_entries freshId now nowTs tokenizerType contentToJson
          developer_id session_id data)
      = ([⟨session_exists_query, .single [session_id, developer_id], .fetchrow⟩],
         .error .noDataFound)
  ∧ (∀ s ∈ (execPlan store
        (create_entries freshId now nowTs tokenizerType contentToJson
          developer_id session_id data)).1,
      s.sql ≠ entry_query)
  ∧ rewrap_exceptions (α := List (List Row)) create_entries_exc_map
        (.error .noDataFound)
      = .error (.http ⟨404, "Session not found"⟩) := by
  have h1 : execPlan store
      (create_entries freshId now nowTs tokenizerType contentToJson
        developer_id session_id data)
    = ([⟨session_exists_query, .single [session_id, developer_id], .fetchrow⟩],
       .error .noDataFound) := by
    rw [create_entries, execPlan]
    rw [if_pos]
    constructor
    · rfl
    · rw [hcheck]
      rfl
  refine ⟨h1, ?_, rfl⟩
  rw [h1]
  intro s hs
  have hs2 : s = ⟨session_exists_query, .single [session_id, developer_id], .fetchrow⟩ := by
    simpa using hs
  subst hs2
  show session_exists_query ≠ entry_query
  decide

/-- Witness for C3: a concrete store whose existence check reports
`exists = false`. -/
theorem create_entries_session_check_gates_insert_witness :
    execPlan
        (fun s => if s.sql = session_exists_query
          then [[("exists", Value.bool false)]] else [])
        (create_entries (fun _ => Value.null) Value.null Value.null
          (fun _ => Value.null) (fun v => v) (Value.str "D") (Value.str "S") [])
      = ([⟨session_exists_query, .single [Value.str "S", Value.str "D"], .fetchrow⟩],
         .error .noDataFound)
  ∧ (∀ s ∈ (execPlan
        (fun s => if s.sql = session_exists_query
          then [[("exists", Value.bool false)]] else [])
        (create_entries (fun _ => Value.null) Value.null Value.null
          (fun _ => Value.null) (fun v => v) (Value.str "D") (Value.str "S") [])).1,
      s.sql ≠ entry_query)
  ∧ rewrap_exceptions (α := List (List Row)) create_entries_exc_map
        (.error .noDataFound)
      = .error (.http ⟨404, "Session not found"⟩) :=
  create_entries_session_check_gates_insert _ _ _ _ _ _ _ _ _ (by simp)

/-- C6: for `single=False` materialization the output sequence is exactly
the transform of each input row in input order — same length, order
preserved; in particular the `create_entries` transform on the row
`{entry_id: "E1", role: "user"}` materializes to `[{id: "E1", role: "user"}]`. -/
theorem many_result_materialization (t : Row → Row) (req : List String)
    (rows : List Row)
    (h : ∀ r ∈ rows, ∀ f ∈ req, ((t r).lookup f).isSome) :
    materializeMany t req rows = .ok (rows.map t)
  ∧ (rows.map t).length = rows.length
  ∧ materializeMany (transformOut create_entries_transform) ["id", "role"]
        [[("entry_id", Value.str "E1"), ("role", Value.str "user")]]
      = .ok [[("id", Value.str "E1"), ("role", Value.str "user")]] := by
  refine ⟨?_, rows.length_map t, rfl⟩
  induction rows with
  | nil => rfl
  | cons r rest ih =>
    have hr : validateShape req (t r) = .ok (t r) :=
      validateShape_ok req (t r) (h r (by simp))
    have hrest : materializeMany t req rest = .ok (rest.map t) :=
      ih (fun x hx => h x (List.mem_cons_of_mem _ hx))
    rw [materializeMany, hr, hrest]
    rfl

/-- Witness for C6: two concrete entry rows materialize, in order, to
their transforms. -/
theorem many_result_materialization_witness :
    materializeMany (transformOut create_entries_transform) ["id"]
        [[("entry_id", Value.str "E1")], [("entry_id", Value.str "E2")]]
      = .ok ([[("entry_id", Value.str "E1")], [("entry_id", Value.str "E2")]].map
          (transformOut create_entries_transform)) :=
  (many_result_materialization _ _ _ (by decide)).1

/-- C7: `search_docs_by_embedding` raises a 400 validation error for
`k < 1`, and for an empty `query_embedding`, before building any query
plan; with `k ≥ 1` and a non-empty embedding no validation error is
raised and a plan is returned. -/
theorem search_docs_by_embedding_validation
    (developer_id : Value) (query_embedding : List String) (k : Int)
    (owners : List (String × String)) (confidence : Value)
    (metadata_filter : Row) :
    (k < 1 →
      search_docs_by_embedding developer_id query_embedding k owners
          confidence metadata_filter
        = .error ⟨400, "k must be >= 1"⟩)
  ∧ (1 ≤ k → query_embedding = [] →
      search_docs_by_embedding developer_id query_embedding k owners
          confidence metadata_filter
        = .error ⟨400, "Empty embedding provided"⟩)
  ∧ (1 ≤ k → query_embedding ≠ [] →
      ∃ q ps,
        search_docs_by_embedding developer_id query_embedding k owners
            confidence metadata_filter
          = .ok (q, ps)) := by
  refine ⟨?_, ?_, ?_⟩
  · intro hk
    rw [search_docs_by_embedding, if_pos hk]
  · intro hk he
    subst he
    rw [search_docs_by_embedding, if_neg (by omega)]
    rfl
  · intro hk he
    obtain ⟨a, l, rfl⟩ : ∃ a l, query_embedding = a :: l := by
      cases query_embedding with
      | nil => exact absurd rfl he
      | cons a l => exact ⟨a, l, rfl⟩
    rw [search_docs_by_embedding, if_neg (by omega)]
    exact ⟨_, _, rfl⟩

/-- Witness for C7: `k = 0` fails, an empty embedding fails, and a valid
call returns a plan. -/
theorem search_docs_by_embedding_validation_witness :
    search_docs_by_embedding (Value.str "D") ["0.5"] 0 [] Value.null []
      = .error ⟨400, "k must be >= 1"⟩
  ∧ search_docs_by_embedding (Value.str "D") [] 10 [] Value.null []
      = .error ⟨400, "Empty embedding provided"⟩
  ∧ ∃ q ps, search_docs_by_embedding (Value.str "D") ["0.5"] 10 [] Value.null []
      = .ok (q, ps) :=
  ⟨(search_docs_by_embedding_validation _ _ _ _ _ _).1 (by decide),
   (search_docs_by_embedding_validation _ _ _ _ _ _).2.1 (by decide) rfl,
   (search_docs_by_embedding_validation _ _ _ _ _ _).2.2 (by decide) (by decide)⟩

/-- C8 (counterexample): called with negative limit and offset,
`list_agents` raises no validation error — it returns a query plan whose
parameters carry the negative values. -/
theorem list_agents_accepts_negative_pagination :
    list_agents (Value.str "D") (-1) (-5) "created_at" "desc" []
      = .ok (strReplace raw_query "\x7bmetadata_filter_query\x7d" "",
          [Value.str "D", Value.int (-1), Value.int (-5),
           Value.str "created_at", Value.str "desc"])
  ∧ ∀ e : HTTPExc,
      list_agents (Value.str "D") (-1) (-5) "created_at" "desc" []
        ≠ .error e := by
  have hok : list_agents (Value.str "D") (-1) (-5) "created_at" "desc" []
      = .ok (strReplace raw_query "\x7bmetadata_filter_query\x7d" "",
          [Value.str "D", Value.int (-1), Value.int (-5),
           Value.str "created_at", Value.str "desc"]) := rfl
  refine ⟨hok, ?_⟩
  intro e h
  rw [hok] at h
  exact Except.noConfusion h

/-- C8 (amended): `list_agents` validates only the sort direction
(400 "Invalid sort direction" when `direction.lower()` is neither `asc`
nor `desc`); a negative limit or offset raises no validation error — the
negative values are passed unchanged into the returned plan's
parameters. -/
theorem list_agents_validation_amended (developer_id : Value)
    (limit offst : Int) (sort_by direction : String) (metadata_filter : Row) :
    (strLower direction ≠ "asc" ∧ strLower direction ≠ "desc" →
      list_agents developer_id limit offst sort_by direction metadata_filter
        = .error ⟨400, "Invalid sort direction"⟩)
  ∧ (strLower direction = "asc" ∨ strLower direction = "desc" →
      ∃ q, list_agents developer_id limit offst sort_by direction metadata_filter
        = .ok (q,
            [developer_id, .int limit, .int offst, .str sort_by, .str direction]
              ++ if metadata_filter.isEmpty then [] else [.dict metadata_filter])) := by
  constructor
  · intro h
    rw [list_agents, if_pos h]
  · intro h
    have hcond : ¬ (strLower direction ≠ "asc" ∧ strLower direction ≠ "desc") := by
      rcases h with h | h <;> simp [h]
    rw [list_agents, if_neg hcond]
    cases hmf : metadata_filter.isEmpty with
    | true =>
      exact ⟨strReplace raw_query "\x7bmetadata_filter_query\x7d" "", by simp [hmf]⟩
    | false =>
      exact ⟨strReplace raw_query "\x7bmetadata_filter_query\x7d" metadata_filter_clause,
        by simp [hmf]⟩

/-- Witness for C8's amended theorem: an invalid direction errors; with a
valid direction, limit -7 and offset -3 land in the parameters. -/
theorem list_agents_validation_amended_witness :
    list_agents (Value.str "D") 100 0 "created_at" "up" []
      = .error ⟨400, "Invalid sort direction"⟩
  ∧ ∃ q, list_agents (Value.str "D") (-7) (-3) "created_at" "asc" []
      = .ok (q,
          [Value.str "D", Value.int (-7), Value.int (-3),
           Value.str "created_at", Value.str "asc"]
            ++ if ([] : Row).isEmpty then [] else [Value.dict []]) :=
  ⟨(list_agents_validation_amended _ _ _ _ _ _).1 (by decide),
   (list_agents_validation_amended _ _ _ _ _ _).2 (Or.inl (by decide))⟩

/-- C9: for every owners list, the SQL returned by
`search_docs_by_embedding` is the query template with `$UUID_LIST`
textually replaced by the ARRAY['…'] fragment concatenated from the
owners' UUID strings in input order, while owner types, `k`, confidence
and the metadata filter travel as positional parameters (the owner IDs do
not). -/
theorem search_docs_by_embedding_splices_owner_ids
    (developer_id : Value) (query_embedding : List String) (k : Int)
    (owners : List (String × String)) (confidence : Value)
    (metadata_filter : Row) (hk : 1 ≤ k) (he : query_embedding ≠ []) :
    search_docs_by_embedding developer_id query_embedding k owners
        confidence metadata_filter
      = .ok (strReplace search_docs_by_embedding_query "$UUID_LIST"
              (specUuidArrayFragment (owners.map Prod.snd)),
             [developer_id,
              .str ("[" ++ joinWith ", " query_embedding ++ "]"),
              .list ((owners.map Prod.fst).map .str),
              .int k, confidence, .dict metadata_filter]) := by
  obtain ⟨a, l, rfl⟩ : ∃ a l, query_embedding = a :: l := by
    cases query_embedding with
    | nil => exact absurd rfl he
    | cons a l => exact ⟨a, l, rfl⟩
  rw [search_docs_by_embedding, if_neg (by omega)]
  rfl

/-- Witness for C9: two owners, `("user", "u1")` and `("agent", "a2")`. -/
theorem search_docs_by_embedding_splices_owner_ids_witness :
    search_docs_by_embedding (Value.str "D") ["1.0", "2.5"] 3
        [("user", "u1"), ("agent", "a2")] (Value.str "c") []
      = .ok (strReplace search_docs_by_embedding_query "$UUID_LIST"
              (specUuidArrayFragment ["u1", "a2"]),
             [Value.str "D",
              .str ("[" ++ joinWith ", " ["1.0", "2.5"] ++ "]"),
              .list [Value.str "user", Value.str "agent"],
              .int 3, Value.str "c", .dict []]) :=
  search_docs_by_embedding_splices_owner_ids _ _ _ _ _ _ (by decide) (by decide)

/-- C10: with a valid direction, `list_agents` returns SQL containing the
clause `AND metadata @> $6::jsonb` and exactly six parameters ending in
the metadata filter when the filter is non-empty, and SQL without the
clause with exactly the five parameters
`[developer_id, limit, offset, sort_by, direction]` when it is empty; in
both cases the highest placeholder index equals the parameter count. -/
theorem list_agents_metadata_clause (developer_id : Value)
    (limit offst : Int) (sort_by direction : String) (metadata_filter : Row)
    (hdir : strLower direction = "asc" ∨ strLower direction = "desc") :
    ∃ q ps,
      list_agents developer_id limit offst sort_by direction metadata_filter
        = .ok (q, ps)
      ∧ (metadata_filter ≠ [] →
          containsSub q metadata_filter_clause = true
        ∧ ps.length = 6
        ∧ ps.getLast? = some (.dict metadata_filter))
      ∧ (metadata_filter = [] →
          containsSub q metadata_filter_clause = false
        ∧ ps = [developer_id, .int limit, .int offst, .str sort_by, .str direction])
      ∧ maxPlaceholder q = ps.length := by
  have hcond : ¬ (strLower direction ≠ "asc" ∧ strLower direction ≠ "desc") := by
    rcases hdir with h | h <;> simp [h]
  cases metadata_filter with
  | nil =>
    refine ⟨strReplace raw_query "\x7bmetadata_filter_query\x7d" "",
      [developer_id, .int limit, .int offst, .str sort_by, .str direction],
      ?_, ?_, ?_, ?_⟩
    · rw [list_agents, if_neg hcond]
      rfl
    · intro h
      exact absurd rfl h
    · intro _
      exact ⟨rfl, rfl⟩
    · rfl
  | cons p rest =>
    refine ⟨strReplace raw_query "\x7bmetadata_filter_query\x7d" metadata_filter_clause,
      [developer_id, .int limit, .int offst, .str sort_by, .str direction]
        ++ [.dict (p :: rest)],
      ?_, ?_, ?_, ?_⟩
    · rw [list_agents, if_neg hcond]
      rfl
    · intro _
      exact ⟨rfl, rfl, rfl⟩
    · intro h
      exact absurd h (by simp)
    · rfl

/-- Witness for C10: a non-empty metadata filter with direction `asc`. -/
theorem list_agents_metadata_clause_witness :
    ∃ q ps,
      list_agents (Value.str "D") 100 0 "created_at" "asc"
          [("tag", Value.str "x")]
        = .ok (q, ps)
      ∧ (([("tag", Value.str "x")] : Row) ≠ [] →
          containsSub q metadata_filter_clause = true
        ∧ ps.length = 6
        ∧ ps.getLast? = some (.dict [("tag", Value.str "x")]))
      ∧ (([("tag", Value.str "x")] : Row) = [] →
          containsSub q metadata_filter_clause = false
        ∧ ps = [Value.str "D", Value.int 100, Value.int 0,
                Value.str "created_at", Value.str "asc"])
      ∧ maxPlaceholder q = ps.length :=
  list_agents_metadata_clause _ _ _ _ _ _ (Or.inl (by decide))

end Julep
